import Mathlib

/-!
Shallow embedding of `src/include/threadsafe_queue.hpp` (template class
`threadsafe_queue<T>`), a two-lock FIFO queue with a dummy tail node.

Modelling choices:
* The nodes live in an append-only heap (`List (node_t α)`); a node address is
  its index.  Raw pointers (`node_t*`) are `Nat` addresses, `unique_ptr<node_t>`
  and `shared_ptr<T>` are `Option` values where `none` is the null / moved-from
  state.
* The embedding is sequential: a single thread calls one complete operation at
  a time, so locks are no-ops and `std::condition_variable::wait` either
  returns at once (predicate already true) or blocks forever (nothing else will
  push).
* Fallible steps are explicit: dereferencing a null or moved-from pointer is
  undefined behavior, rendered as the `none` / `.ub` branch of a total
  function.
-/

/-- `struct node_t { std::shared_ptr<T> data; std::unique_ptr<node_t> next; };`
`data = none` models a null `shared_ptr`, `next = none` a null `unique_ptr`;
`next = some b` owns the node at heap address `b`. -/
structure node_t (α : Type) where
  data : Option α
  next : Option Nat
deriving Repr, DecidableEq

/-- The state of a `threadsafe_queue<T>` object.  `heap` is the append-only
node store (addresses are indices); `head_` models the
`std::unique_ptr<node_t> head_` member (`none` = null / moved-from) and
`tail_` the raw `node_t* tail_`.  Mutexes and the condition variable carry no
sequential state and are not represented. -/
structure threadsafe_queue (α : Type) where
  heap : List (node_t α)
  head_ : Option Nat
  tail_ : Nat
deriving Repr, DecidableEq

namespace threadsafe_queue

variable {α : Type}

/-- The constructor:
`threadsafe_queue() : head_{std::make_unique<node_t>()}, tail_{head_.get()}`.
One freshly allocated empty node at address 0; head and tail both refer to
it. -/
def init (α : Type) : threadsafe_queue α :=
  { heap := [⟨none, none⟩], head_ := some 0, tail_ := 0 }

/-- `get_tail()`: returns `tail_` under the tail lock (no-op sequentially). -/
def get_tail (q : threadsafe_queue α) : Nat :=
  q.tail_

/-- `push(T value)`:
`auto data = make_shared<T>(move(value)); auto node = make_unique<node_t>();
tail_->data = data; const auto tail = node.get(); tail_->next = move(node);
tail_ = tail;` (then `data_cond_.notify_one()`, a sequential no-op).
The fresh node is appended to the heap at address `q.heap.length`; writing
through the raw `tail_` pointer requires the address to be in the heap,
otherwise the dereference is undefined behavior (`none`). -/
def push (q : threadsafe_queue α) (value : α) : Option (threadsafe_queue α) :=
  let nodeAddr := q.heap.length
  let heap0 := q.heap ++ [⟨none, none⟩]
  match heap0[q.tail_]? with
  | none => none
  | some tn =>
      some { heap := heap0.set q.tail_ { tn with data := some value, next := some nodeAddr },
             head_ := q.head_,
             tail_ := nodeAddr }

/-- Outcome of a `push` run under an allocation oracle: the queue state after
the call, whether the call completed (vs. propagated `bad_alloc`), and whether
`data_cond_.notify_one()` was reached. -/
structure PushOutcome (α : Type) where
  state : threadsafe_queue α
  ok : Bool
  notified : Bool
deriving Repr, DecidableEq

/-- `push` with an explicit allocation oracle: `okData` is whether
`std::make_shared<T>(std::move(value))` succeeds, `okNode` whether
`std::make_unique<node_t>()` succeeds.  Both allocations happen before the
tail lock is taken and before any queue mutation, so a failure propagates to
the caller with the queue untouched and no notification sent.  The outer
`none` is the undefined-behavior case of the tail dereference. -/
def pushF (q : threadsafe_queue α) (value : α) (okData okNode : Bool) :
    Option (PushOutcome α) :=
  if okData = false then some ⟨q, false, false⟩
  else if okNode = false then some ⟨q, false, false⟩
  else
    match push q value with
    | none => none
    | some q1 => some ⟨q1, true, true⟩

/-- `pop_head()`:
`auto old_head = std::move(head_); head_ = std::move(head_->next);
return old_head;`
After the first line the member `head_` is a moved-from (null) `unique_ptr`;
the second line then evaluates `head_->next`, dereferencing that null pointer:
undefined behavior, modelled as `none`.  The `some` branch spells out what the
second line would do if `head_` still held an address `h`: move the node's
`next` into `head_` and return the detached handle. -/
def pop_head (q : threadsafe_queue α) : Option (threadsafe_queue α × Option Nat) :=
  let old_head : Option Nat := q.head_
  let head_after_move : Option Nat := none
  match head_after_move with
  | none => none
  | some h =>
      match q.heap[h]? with
      | none => none
      | some hn =>
          some ({ q with head_ := hn.next,
                         heap := q.heap.set h { hn with next := none } },
                old_head)

/-- Result of a pop-side call in the sequential model: `blocked` (a
condition-variable wait whose predicate never becomes true), `ub` (a null or
moved-from dereference), or `done q r` (normal return `r` with queue state
`q`). -/
inductive PopOutcome (α : Type) (β : Type) where
  | blocked : PopOutcome α β
  | ub : PopOutcome α β
  | done : threadsafe_queue α → β → PopOutcome α β
deriving Repr, DecidableEq

/-- A caller-supplied `T&` output location.  The source's non-blocking
output-parameter pop assigns the detached `unique_ptr<node_t>` itself into the
location (`value = pop_head();`), so the location may end up holding either a
payload or a node handle. -/
inductive RefCell (α : Type) where
  | payload : α → RefCell α
  | handle : Option Nat → RefCell α
deriving Repr, DecidableEq

/-- `try_pop()`:
`if (head_.get() == get_tail()) return nullptr; return pop_head()->data;`
The result `Option α` is the returned `shared_ptr<T>` (`none` = null).
`pop_head()->data` dereferences the returned `unique_ptr`; a null handle or a
failed `pop_head` is undefined behavior. -/
def try_pop (q : threadsafe_queue α) : PopOutcome α (Option α) :=
  if q.head_ = some (get_tail q) then
    PopOutcome.done q none
  else
    match pop_head q with
    | none => PopOutcome.ub
    | some (q1, old_head) =>
        match old_head with
        | none => PopOutcome.ub
        | some a =>
            match q1.heap[a]? with
            | none => PopOutcome.ub
            | some n => PopOutcome.done q1 n.data

/-- `try_pop(T& value)`:
`if (head_.get() == get_tail()) return false; value = pop_head(); return true;`
On the non-empty path the detached node handle itself is assigned into the
output location (the type mismatch the spec flags as an oversight), after
`pop_head()` has run. -/
def try_pop_ref (q : threadsafe_queue α) (value : RefCell α) :
    PopOutcome α (RefCell α × Bool) :=
  if q.head_ = some (get_tail q) then
    PopOutcome.done q (value, false)
  else
    match pop_head q with
    | none => PopOutcome.ub
    | some (q1, old_head) => PopOutcome.done q1 (RefCell.handle old_head, true)

/-- `wait_and_pop_head()`:
`auto head_lock = wait_for_data(); return pop_head();`
`wait_for_data` waits on the condition variable for
`head_.get() != get_tail()`; sequentially it returns at once when the
predicate already holds and blocks forever otherwise. -/
def wait_and_pop_head (q : threadsafe_queue α) : PopOutcome α (Option Nat) :=
  if q.head_ = some (get_tail q) then
    PopOutcome.blocked
  else
    match pop_head q with
    | none => PopOutcome.ub
    | some (q1, old_head) => PopOutcome.done q1 old_head

/-- `wait_and_pop()`: `return wait_and_pop_head()->data;` -/
def wait_and_pop (q : threadsafe_queue α) : PopOutcome α (Option α) :=
  match wait_and_pop_head q with
  | PopOutcome.blocked => PopOutcome.blocked
  | PopOutcome.ub => PopOutcome.ub
  | PopOutcome.done q1 old_head =>
      match old_head with
      | none => PopOutcome.ub
      | some a =>
          match q1.heap[a]? with
          | none => PopOutcome.ub
          | some n => PopOutcome.done q1 n.data

/-- `wait_and_pop_head(T& value)`:
`auto head_lock = wait_for_data(); value = std::move(*head_->data);
return pop_head();`
`*head_->data` dereferences `head_` and then the `shared_ptr` it holds (null
either way is undefined behavior); the final `return` converts the
`unique_ptr` returned by `pop_head()` to `bool` (non-null gives `true`). -/
def wait_and_pop_head_ref (q : threadsafe_queue α) (value : RefCell α) :
    PopOutcome α (RefCell α × Bool) :=
  if q.head_ = some (get_tail q) then
    PopOutcome.blocked
  else
    match q.head_ with
    | none => PopOutcome.ub
    | some h =>
        match q.heap[h]? with
        | none => PopOutcome.ub
        | some hn =>
            match hn.data with
            | none => PopOutcome.ub
            | some a =>
                let written := RefCell.payload a
                match pop_head q with
                | none => PopOutcome.ub
                | some (q1, old_head) =>
                    PopOutcome.done q1 (written, old_head.isSome)

/-- `wait_and_pop(T& value)`: `return wait_and_pop_head(value);` -/
def wait_and_pop_ref (q : threadsafe_queue α) (value : RefCell α) :
    PopOutcome α (RefCell α × Bool) :=
  wait_and_pop_head_ref q value

/-- `empty()`: `return head_.get() == get_tail();` -/
def empty (q : threadsafe_queue α) : Bool :=
  decide (q.head_ = some (get_tail q))

/-- `Chain heap a m`: starting at heap address `a` and following `next` links,
the visited addresses are exactly `m` (so `m` starts with `a`), every visited
address holds a node in `heap`, and the final node's `next` is null. -/
inductive Chain (heap : List (node_t α)) : Nat → List Nat → Prop where
  | last (a : Nat) (n : node_t α) (ha : heap[a]? = some n) (hn : n.next = none) :
      Chain heap a [a]
  | cons (a : Nat) (n : node_t α) (b : Nat) (m : List Nat)
      (ha : heap[a]? = some n) (hn : n.next = some b) (hc : Chain heap b m) :
      Chain heap a (a :: m)

/-- The state invariant of the queue (С6): `head_` is a valid (non-null)
handle; following `next` links from it visits a duplicate-free chain of nodes
whose last element is the node `tail_` points to; the tail node never carries
a payload; every other chain node does carry one. -/
def Inv (q : threadsafe_queue α) : Prop :=
  ∃ h m, q.head_ = some h ∧ Chain q.heap h m ∧
    m.getLast? = some q.tail_ ∧ m.Nodup ∧
    (∀ n, q.heap[q.tail_]? = some n → n.data = none) ∧
    (∀ a ∈ m, a ≠ q.tail_ → ∀ n, q.heap[a]? = some n → n.data.isSome = true)

theorem chain_head (heap : List (node_t α)) (a : Nat) (m : List Nat)
    (hc : Chain heap a m) : m.head? = some a := by
  cases hc <;> rfl

theorem chain_ne_nil (heap : List (node_t α)) (a : Nat) (m : List Nat)
    (hc : Chain heap a m) : m ≠ [] := by
  cases hc <;> simp

theorem chain_mem_lt (heap : List (node_t α)) (a : Nat) (m : List Nat)
    (hc : Chain heap a m) : ∀ b ∈ m, b < heap.length := by
  induction hc with
  | last a n ha hn =>
      intro b hb
      rw [List.mem_singleton] at hb
      subst hb
      rcases List.getElem?_eq_some.mp ha with ⟨hlt, _⟩
      exact hlt
  | cons a n b m ha hn hc ih =>
      intro c hc'
      rcases List.mem_cons.mp hc' with h | h
      · subst h
        rcases List.getElem?_eq_some.mp ha with ⟨hlt, _⟩
        exact hlt
      · exact ih c h

theorem getElem?_append_left' {l l' : List (node_t α)} {i : Nat}
    (h : i < l.length) : (l ++ l')[i]? = l[i]? := by
  rw [List.getElem?_append_left h]

theorem getLast?_mem {m : List Nat} {t : Nat} (h : m.getLast? = some t) :
    t ∈ m := by
  rcases m with _ | ⟨x, m'⟩
  · simp at h
  · have hne : (x :: m') ≠ ([] : List Nat) := by simp
    rw [List.getLast?_eq_getLast_of_ne_nil hne] at h
    have hm := List.getLast_mem hne
    exact Option.some_inj.mp h ▸ hm

/-- Extending a chain ending at `t` by the freshly pushed placeholder node:
the heap grows by one node at address `heap.length`, and the old tail node is
overwritten with the pushed payload and a link to the new node. -/
theorem chain_extend (v : α) :
    ∀ {heap : List (node_t α)} {a t : Nat} {m : List Nat},
    Chain heap a m → m.getLast? = some t → m.Nodup →
    Chain ((heap ++ [(⟨none, none⟩ : node_t α)]).set t
        (⟨some v, some heap.length⟩ : node_t α)) a
      (m ++ [heap.length]) := by
  intro heap a t m hc
  induction hc with
  | last a n ha hn =>
      intro hlast _
      have ht : a = t := by simpa using hlast
      subst ht
      rcases List.getElem?_eq_some.mp ha with ⟨hlt, _⟩
      refine Chain.cons a ⟨some v, some heap.length⟩ heap.length [heap.length] ?_ rfl ?_
      · have hlt' : a < (heap ++ [(⟨none, none⟩ : node_t α)]).length := by
          simp
          omega
        exact List.getElem?_set_self hlt'
      · refine Chain.last heap.length ⟨none, none⟩ ?_ rfl
        have hne : a ≠ heap.length := by omega
        rw [List.getElem?_set_ne hne]
        simp
  | cons a n b m ha hn hc ih =>
      intro hlast hnd
      have hmne : m ≠ [] := chain_ne_nil heap b m hc
      have hlast' : m.getLast? = some t := by
        rcases m with _ | ⟨x, m'⟩
        · exact absurd rfl hmne
        · rw [List.getLast?_cons_cons] at hlast
          exact hlast
      rcases List.nodup_cons.mp hnd with ⟨ham, hndm⟩
      have htm : t ∈ m := getLast?_mem hlast'
      have hat : a ≠ t := fun h => ham (h ▸ htm)
      rcases List.getElem?_eq_some.mp ha with ⟨hlt, _⟩
      refine Chain.cons a n b (m ++ [heap.length]) ?_ hn (ih hlast' hndm)
      rw [List.getElem?_set_ne (fun h => hat h.symm), getElem?_append_left' hlt]
      exact ha

theorem chain_start_mem (heap : List (node_t α)) (a : Nat) (m : List Nat)
    (hc : Chain heap a m) : a ∈ m := by
  cases hc <;> simp

/-- `pop_head` always dereferences the just-moved-from `head_` member, so it
always hits undefined behavior, on every queue state. -/
theorem pop_head_eq_none (q : threadsafe_queue α) : pop_head q = none :=
  rfl

/-- When `tail_` is a live address, `push` succeeds and its result is the old
tail node overwritten with the payload and a link to the fresh placeholder
appended at address `q.heap.length`. -/
theorem push_eq_of_lt {q : threadsafe_queue α} {v : α}
    (hlt : q.tail_ < q.heap.length) :
    push q v = some { heap := (q.heap ++ [(⟨none, none⟩ : node_t α)]).set q.tail_
                        (⟨some v, some q.heap.length⟩ : node_t α),
                      head_ := q.head_,
                      tail_ := q.heap.length } := by
  have he : (q.heap ++ [(⟨none, none⟩ : node_t α)])[q.tail_]? = some q.heap[q.tail_] := by
    rw [getElem?_append_left' hlt]
    exact List.getElem?_eq_getElem hlt
  simp [push, he]

theorem push_Inv {q : threadsafe_queue α} {v : α} {q' : threadsafe_queue α}
    (hq : Inv q) (hp : push q v = some q') : Inv q' := by
  obtain ⟨h, m, hh, hc, hlast, hnd, htail, hdata⟩ := hq
  have htm : q.tail_ ∈ m := getLast?_mem hlast
  have hlt : q.tail_ < q.heap.length := chain_mem_lt q.heap h m hc q.tail_ htm
  rw [push_eq_of_lt hlt] at hp
  have hq' := Option.some_inj.mp hp
  subst hq'
  have hLm : q.heap.length ∉ m := fun hmem =>
    absurd (chain_mem_lt q.heap h m hc q.heap.length hmem) (lt_irrefl _)
  refine ⟨h, m ++ [q.heap.length], hh, chain_extend v hc hlast hnd, ?_, ?_, ?_, ?_⟩
  · simp [List.getLast?_concat]
  · simp [List.nodup_append, hnd, hLm]
  · intro n hn
    rw [List.getElem?_set_ne (by omega : q.tail_ ≠ q.heap.length)] at hn
    simp at hn
    rw [← hn]
  · intro a ha hane n hn
    have ham : a ∈ m := by
      rcases List.mem_append.mp ha with h1 | h1
      · exact h1
      · exact absurd (List.mem_singleton.mp h1) hane
    by_cases hat : a = q.tail_
    · have hlt' : q.tail_ < (q.heap ++ [(⟨none, none⟩ : node_t α)]).length := by
        simp
        omega
      rw [hat, List.getElem?_set_self hlt'] at hn
      rw [← Option.some_inj.mp hn]
      rfl
    · have halt : a < q.heap.length := chain_mem_lt q.heap h m hc a ham
      rw [List.getElem?_set_ne (fun hx => hat hx.symm),
          getElem?_append_left' halt] at hn
      exact hdata a ham hat n hn

theorem Inv_init (α : Type) : Inv (init α) := by
  refine ⟨0, [0], rfl, Chain.last 0 ⟨none, none⟩ rfl rfl, rfl, by simp, ?_, ?_⟩
  · intro n hn
    have : n = (⟨none, none⟩ : node_t α) := by
      have he : (init α).heap[(init α).tail_]? = some ⟨none, none⟩ := rfl
      rw [he] at hn
      exact (Option.some_inj.mp hn).symm
    rw [this]
  · intro a ha hane
    rw [List.mem_singleton] at ha
    exact absurd ha hane

/-- The queue state an operation leaves behind: the result state of a
completed call; the unchanged input state while a call is blocked on the
condition variable (blocking does not mutate the queue); by convention the
input state in the undefined-behavior case, where the source leaves no
well-defined state at all. -/
def outState {β : Type} (q : threadsafe_queue α) :
    PopOutcome α β → threadsafe_queue α
  | PopOutcome.blocked => q
  | PopOutcome.ub => q
  | PopOutcome.done q1 _ => q1

theorem try_pop_cases (q : threadsafe_queue α) :
    try_pop q = PopOutcome.done q none ∨ try_pop q = PopOutcome.ub := by
  by_cases h : q.head_ = some (get_tail q)
  · left
    simp [try_pop, h]
  · right
    simp [try_pop, h, pop_head_eq_none]

theorem try_pop_ref_cases (q : threadsafe_queue α) (v : RefCell α) :
    try_pop_ref q v = PopOutcome.done q (v, false) ∨
      try_pop_ref q v = PopOutcome.ub := by
  by_cases h : q.head_ = some (get_tail q)
  · left
    simp [try_pop_ref, h]
  · right
    simp [try_pop_ref, h, pop_head_eq_none]

theorem wait_and_pop_cases (q : threadsafe_queue α) :
    wait_and_pop q = PopOutcome.blocked ∨ wait_and_pop q = PopOutcome.ub := by
  by_cases h : q.head_ = some (get_tail q)
  · left
    simp [wait_and_pop, wait_and_pop_head, h]
  · right
    simp [wait_and_pop, wait_and_pop_head, h, pop_head_eq_none]

theorem wait_and_pop_ref_cases (q : threadsafe_queue α) (v : RefCell α) :
    wait_and_pop_ref q v = PopOutcome.blocked ∨
      wait_and_pop_ref q v = PopOutcome.ub := by
  by_cases h : q.head_ = some (get_tail q)
  · left
    simp [wait_and_pop_ref, wait_and_pop_head_ref, h]
  · right
    rcases hh : q.head_ with _ | h1
    · simp [wait_and_pop_ref, wait_and_pop_head_ref, h, hh]
    · have hne : ¬h1 = q.get_tail := fun he => h (by rw [hh, he])
      rcases hn : q.heap[h1]? with _ | n
      · simp [wait_and_pop_ref, wait_and_pop_head_ref, hh, hn, hne]
      · rcases hd : n.data with _ | a
        · simp [wait_and_pop_ref, wait_and_pop_head_ref, hh, hn, hd, hne]
        · simp [wait_and_pop_ref, wait_and_pop_head_ref, hh, hn, hd, hne,
                pop_head_eq_none]

end threadsafe_queue

open threadsafe_queue

/-- The queue after `push(1)` on a fresh queue: node 0 carries payload 1 and
links to node 1, the empty placeholder the tail points to. -/
def q1 : threadsafe_queue Nat :=
  { heap := [⟨some 1, some 1⟩, ⟨none, none⟩], head_ := some 0, tail_ := 1 }

/-- The queue after `push(1); push(2); push(3)` on a fresh queue. -/
def q123 : threadsafe_queue Nat :=
  { heap := [⟨some 1, some 1⟩, ⟨some 2, some 2⟩, ⟨some 3, some 3⟩, ⟨none, none⟩],
    head_ := some 0, tail_ := 3 }

/-- Claim C1: the two `try_pop` shapes are claimed to be behaviorally
equivalent, with both removing the front node and delivering its payload on a
non-empty queue.  In fact on the reachable non-empty queue `q1` (head distinct
from tail) both shapes hit undefined behavior inside `pop_head` (the
moved-from `head_` is dereferenced) instead of delivering payload 1; neither
call shape can deliver a payload at all. -/
theorem claim_C1 :
    push (init Nat) 1 = some q1 ∧
    q1.head_ ≠ some q1.tail_ ∧
    try_pop q1 = PopOutcome.ub ∧
    try_pop_ref q1 (RefCell.payload 0) = PopOutcome.ub :=
  ⟨rfl, by decide, rfl, rfl⟩

/-- Claim C2: the detach-head helper is claimed to advance `head_` by one link
with no null/moved-from dereference on the non-empty path.  In fact
`pop_head` moves `head_` into `old_head` and then evaluates `head_->next` on
the moved-from (null) `head_`, so it hits undefined behavior on every queue
state — in particular on the reachable non-empty state `q1`. -/
theorem claim_C2 :
    (∀ (q : threadsafe_queue Nat), pop_head q = none) ∧
    push (init Nat) 1 = some q1 ∧
    q1.head_ ≠ some q1.tail_ :=
  ⟨fun _ => rfl, rfl, by decide⟩

/-- Claim C3: a successful pop on a non-empty queue is claimed to detach the
head node, advance `head_`, and yield a payload.  In fact on the reachable
non-empty queue `q1` both `try_pop` and `wait_and_pop` reach `pop_head`,
which dereferences the moved-from `head_`: no pop can ever succeed. -/
theorem claim_C3 :
    push (init Nat) 1 = some q1 ∧
    try_pop q1 = PopOutcome.ub ∧
    wait_and_pop q1 = PopOutcome.ub :=
  ⟨rfl, rfl, rfl⟩

/-- Claim C4: after `push(1); push(2); push(3)` the three `try_pop` calls are
claimed to return 1, 2, 3 and a fourth to return absent.  In fact the pushes
produce `q123`, and already the first `try_pop` hits undefined behavior in
`pop_head` instead of returning 1. -/
theorem claim_C4 :
    ((push (init Nat) 1).bind (fun q => push q 2)).bind (fun q => push q 3) =
      some q123 ∧
    try_pop q123 = PopOutcome.ub :=
  ⟨rfl, rfl⟩

/-- Claim C5: on a non-empty queue `wait_and_pop` is claimed to perform the
same detach-and-advance as `try_pop` and return the same payload.  In fact on
the reachable non-empty queue `q1` both `wait_and_pop` shapes hit undefined
behavior in `pop_head` and never return a payload. -/
theorem claim_C5 :
    push (init Nat) 1 = some q1 ∧
    wait_and_pop q1 = PopOutcome.ub ∧
    wait_and_pop_ref q1 (RefCell.payload 0) = PopOutcome.ub :=
  ⟨rfl, rfl, rfl⟩

/-- Claim C6: the state invariant `Inv` — a valid head handle whose `next`
chain is duplicate-free and ends at the node `tail_` points to, the tail node
payload-free, every other chain node payload-bearing — holds after
construction and is preserved by every operation: `push` (when it completes),
and each pop shape (via `outState`: the state a call leaves behind — its
result state when it completes, the unchanged state while blocked or in the
unreachable undefined-behavior convention).  `empty` does not mutate the
state at all in the embedding.  Consequences: the heap always holds at least
one node, `empty` is exactly the head/tail comparison, and under `Inv` the
queue is non-empty exactly when the front node carries a payload. -/
theorem claim_C6 :
    (∀ (α : Type), Inv (init α)) ∧
    (∀ (q : threadsafe_queue Nat) (v : Nat) (q' : threadsafe_queue Nat),
      Inv q → push q v = some q' → Inv q') ∧
    (∀ (q : threadsafe_queue Nat), Inv q → Inv (outState q (try_pop q))) ∧
    (∀ (q : threadsafe_queue Nat) (v : RefCell Nat), Inv q →
      Inv (outState q (try_pop_ref q v))) ∧
    (∀ (q : threadsafe_queue Nat), Inv q → Inv (outState q (wait_and_pop q))) ∧
    (∀ (q : threadsafe_queue Nat) (v : RefCell Nat), Inv q →
      Inv (outState q (wait_and_pop_ref q v))) ∧
    (∀ (q : threadsafe_queue Nat), Inv q → 0 < q.heap.length) ∧
    (∀ (q : threadsafe_queue Nat), empty q = true ↔ q.head_ = some q.tail_) ∧
    (∀ (q : threadsafe_queue Nat), Inv q →
      (empty q = false ↔ ∃ h n, q.head_ = some h ∧ q.heap[h]? = some n ∧
        n.data.isSome = true)) := by
  refine ⟨Inv_init, fun q v q' hq hp => push_Inv hq hp, ?_, ?_, ?_, ?_, ?_, ?_, ?_⟩
  · intro q hq
    rcases try_pop_cases q with h | h <;> rw [h] <;> exact hq
  · intro q v hq
    rcases try_pop_ref_cases q v with h | h <;> rw [h] <;> exact hq
  · intro q hq
    rcases wait_and_pop_cases q with h | h <;> rw [h] <;> exact hq
  · intro q v hq
    rcases wait_and_pop_ref_cases q v with h | h <;> rw [h] <;> exact hq
  · intro q hq
    obtain ⟨h, m, hh, hc, _, _, _, _⟩ := hq
    have hmem := chain_start_mem q.heap h m hc
    have := chain_mem_lt q.heap h m hc h hmem
    omega
  · intro q
    simp [empty, get_tail]
  · intro q hq
    obtain ⟨h, m, hh, hc, hlast, hnd, htail, hdata⟩ := hq
    constructor
    · intro hfalse
      have hne : h ≠ q.tail_ := by
        intro he
        rw [empty, get_tail, hh, he] at hfalse
        simp at hfalse
      have ha : ∃ n, q.heap[h]? = some n := by
        cases hc with
        | last a n ha hn => exact ⟨n, ha⟩
        | cons a n b m' ha hn hc' => exact ⟨n, ha⟩
      obtain ⟨n, ha⟩ := ha
      exact ⟨h, n, hh, ha, hdata h (chain_start_mem q.heap h m hc) hne n ha⟩
    · rintro ⟨h', n, hh', hm, hd⟩
      rw [empty, get_tail]
      simp only [decide_eq_false_iff_not]
      intro he
      have hht : h' = q.tail_ := by
        rw [hh'] at he
        exact Option.some_inj.mp he
      rw [hht] at hm
      rw [htail n hm] at hd
      simp at hd

/-- Witness for C6: the invariant holds on the fresh queue and on the
reachable state `q1` after one push, and the derived facts are available on
`q1`. -/
theorem claim_C6_witness :
    Inv (init Nat) ∧ Inv q1 ∧ Inv (outState q1 (try_pop q1)) ∧
    Inv (outState q1 (wait_and_pop q1)) ∧ 0 < q1.heap.length ∧
    (empty q1 = false ↔ ∃ h n, q1.head_ = some h ∧ q1.heap[h]? = some n ∧
      n.data.isSome = true) := by
  have h := claim_C6
  have h0 := h.1 Nat
  have h1 : Inv q1 := h.2.1 (init Nat) 1 q1 h0 rfl
  exact ⟨h0, h1, h.2.2.1 q1 h1, h.2.2.2.2.1 q1 h1,
         h.2.2.2.2.2.2.1 q1 h1, h.2.2.2.2.2.2.2.2 q1 h1⟩

/-- Claim C7: on an empty queue (`head_` and `tail_` the same node) each
`try_pop` shape reports absence — null `shared_ptr` for the value shape,
`false` with the output location untouched for the output-parameter shape —
returning the queue state entirely unchanged and raising no exception (the
outcome is a normal `done`, not `ub`). -/
theorem claim_C7 :
    ∀ (q : threadsafe_queue Nat) (v : RefCell Nat),
      q.head_ = some q.tail_ →
      try_pop q = PopOutcome.done q none ∧
      try_pop_ref q v = PopOutcome.done q (v, false) := by
  intro q v h
  constructor
  · simp [try_pop, get_tail, h]
  · simp [try_pop_ref, get_tail, h]

/-- Witness for C7: at the fresh queue, whose head and tail coincide. -/
theorem claim_C7_witness :
    try_pop (init Nat) = PopOutcome.done (init Nat) none ∧
    try_pop_ref (init Nat) (RefCell.payload 7) =
      PopOutcome.done (init Nat) (RefCell.payload 7, false) :=
  claim_C7 (init Nat) (RefCell.payload 7) rfl

/-- Claim C8: `empty()` is true on a fresh queue and false after one push —
both hold — but the claim's third leg fails: popping that one value is
impossible, since both pop entry points hit undefined behavior in `pop_head`
on the non-empty queue `q1`, so `empty` can never be observed true again by
popping. -/
theorem claim_C8 :
    empty (init Nat) = true ∧
    push (init Nat) 1 = some q1 ∧
    empty q1 = false ∧
    try_pop q1 = PopOutcome.ub ∧
    wait_and_pop q1 = PopOutcome.ub :=
  ⟨rfl, rfl, rfl, rfl, rfl⟩

/-- Claim C9: `push` is atomic with respect to allocation failure.  Under the
allocation oracle, failure of either the payload-holder allocation
(`make_shared`) or the placeholder-node allocation (`make_unique`) propagates
to the caller with the queue state exactly unchanged and no notification
sent; when both succeed the call is exactly a completed `push` with the
notification sent, and on a state whose tail address is live (as every
reachable state is) the completed push links the new node and advances
`tail_` to it while leaving `head_` alone. -/
theorem claim_C9 :
    ∀ (q : threadsafe_queue Nat) (v : Nat) (okData okNode : Bool),
      (¬(okData = true ∧ okNode = true) →
        pushF q v okData okNode = some ⟨q, false, false⟩) ∧
      (pushF q v true true =
        Option.map (fun q2 => PushOutcome.mk q2 true true) (push q v)) ∧
      (q.tail_ < q.heap.length →
        ∃ q2, push q v = some q2 ∧ pushF q v true true = some ⟨q2, true, true⟩ ∧
          q2.tail_ = q.heap.length ∧ q2.head_ = q.head_) := by
  intro q v okData okNode
  refine ⟨?_, ?_, ?_⟩
  · intro h
    rcases okData with _ | _ <;> rcases okNode with _ | _
    · simp [pushF]
    · simp [pushF]
    · simp [pushF]
    · exact absurd ⟨rfl, rfl⟩ h
  · rcases hp : push q v with _ | q2 <;> simp [pushF, hp]
  · intro hlt
    refine ⟨_, push_eq_of_lt hlt, ?_, rfl, rfl⟩
    simp [pushF, push_eq_of_lt hlt]

/-- Witness for C9: on the fresh queue, a failed payload allocation leaves the
queue untouched, and a fully successful push completes. -/
theorem claim_C9_witness :
    pushF (init Nat) 5 false true = some ⟨init Nat, false, false⟩ ∧
    (∃ q2, push (init Nat) 5 = some q2 ∧
      pushF (init Nat) 5 true true = some ⟨q2, true, true⟩ ∧
      q2.tail_ = (init Nat).heap.length ∧ q2.head_ = (init Nat).head_) :=
  ⟨(claim_C9 (init Nat) 5 false true).1 (by decide),
   (claim_C9 (init Nat) 5 true true).2.2 (by decide)⟩

/-- Claim C10: `wait_and_pop(T&)` is claimed always to return `true` when it
returns.  In fact it never returns at all: on an empty queue it blocks
forever on the condition variable, and on a non-empty queue it hits undefined
behavior in `pop_head` before the node handle could be converted to a
boolean, so no caller ever observes any boolean result from this shape. -/
theorem claim_C10 :
    ∀ (q : threadsafe_queue Nat) (v : RefCell Nat),
      wait_and_pop_ref q v = PopOutcome.blocked ∨
      wait_and_pop_ref q v = PopOutcome.ub :=
  fun q v => wait_and_pop_ref_cases q v
